import Mathlib

/-!
# Verification of the Rigol DM3058 driver (`pymeasure/instruments/rigol/dm3058.py`)

The file under analysis is a declarative driver: a table of `Instrument.control` /
`Instrument.measurement` property declarations (command templates, validators,
value tables, transform lambdas).  The generic instrument-control core it
consumes (the validators `truncated_discrete_set`, `strict_discrete_set`,
`strict_range`, and the descriptor get/set dispatch engine) is not part of the
source file; those parts are modelled here from the specification's words
(each such definition carries a doc comment starting `Modelled from the
spec:`).  The per-property data (command strings, value sets, mappings,
process lambdas) is translated directly from the source file.

Numeric values are rationals (`ℚ`); every decimal literal of the source is
written as `mkRat` with the same value.  A set dispatch is modelled as a
function returning `Except PyError String`: `.ok c` means exactly the command
string `c` was sent through the Adapter; `.error e` means the error `e` was
raised locally and nothing reached the Adapter.  A get dispatch takes the
Adapter as a function `String → String` (query command to raw response);
`.error .WriteOnlyError` is returned before the adapter is ever consulted.
-/

/-- The local error taxonomy of the instrument-control core (spec §7). -/
inductive PyError where
  | InvalidValueError
  | WriteOnlyError
  | ReadOnlyError
  | KeyError
  | ParseError
deriving DecidableEq

instance {ε α : Type} [DecidableEq ε] [DecidableEq α] : DecidableEq (Except ε α) := by
  intro a b
  cases a <;> cases b
  case error.error x y =>
    exact if h : x = y then isTrue (by rw [h]) else isFalse (by intro hc; cases hc; exact h rfl)
  case error.ok x y => exact isFalse (by intro h; cases h)
  case ok.error x y => exact isFalse (by intro h; cases h)
  case ok.ok x y =>
    exact if h : x = y then isTrue (by rw [h]) else isFalse (by intro hc; cases hc; exact h rfl)

/-- A dynamically-typed Python scalar, as it flows through the get path:
a parsed numeric response, a raw string, or a boolean produced by a
`get_process` transform. -/
inductive PyVal where
  | num (q : ℚ)
  | str (s : String)
  | boolean (b : Bool)
deriving DecidableEq

/-! ## Command formatting -/

/-- Substitution of a value string for the `%s` placeholder of a command
template (Python's `command % value`), character by character. -/
def substPercentS (val : String) : List Char → String
  | [] => ""
  | [c] => String.singleton c
  | c :: c2 :: rest =>
    if c = '%' ∧ c2 = 's' then val ++ substPercentS val rest
    else String.singleton c ++ substPercentS val (c2 :: rest)

/-- Format a command template by substituting the rendered value for its
single `%s` placeholder (spec §4.2: "Format `set_command` by substituting the
(possibly transformed) value into its single placeholder"). -/
def formatCmd (template val : String) : String :=
  substPercentS val template.data

/-- Rendering of a wire value into the command placeholder (Python `str()`),
for the small natural numbers used as mapped wire values. -/
def renderNat (n : ℕ) : String := toString n

/-- Rendering of a numeric value into the command placeholder.  The spec
fixes only that the validated value is substituted unchanged; the exact
decimal surface form is Python `str()`, modelled by Lean's rational
rendering. -/
def renderRat (q : ℚ) : String := toString q

/-! ## Validators (spec §4.1) -/

/-- Least element of a nonempty list (head plus tail fold). -/
def minList (x : ℚ) : List ℚ → ℚ
  | [] => x
  | y :: ys => minList (min x y) ys

/-- Greatest element of a nonempty list (head plus tail fold). -/
def maxList (x : ℚ) : List ℚ → ℚ
  | [] => x
  | y :: ys => maxList (max x y) ys

/-- Modelled from the spec: the validator `truncated_discrete_set` of the
instrument-control core (not under `src/`): "selects the smallest element of
`values` that is ≥ `value`, or the maximum element if `value` exceeds all of
them"; `none` can only arise for an empty value set, which no descriptor of
this driver declares. -/
def truncated_discrete_set (value : ℚ) (values : List ℚ) : Option ℚ :=
  match values.filter (fun w => decide (value ≤ w)) with
  | [] =>
    match values with
    | [] => none
    | x :: xs => some (maxList x xs)
  | w :: ws => some (minList w ws)

/-- Modelled from the spec: the validator `strict_discrete_set` of the
instrument-control core (not under `src/`): "returns `value` unchanged if
present in `values` (exact membership, using natural equality for the
value's type); else fails with `InvalidValueError`". -/
def strict_discrete_set {α : Type} [DecidableEq α] (value : α) (values : List α) :
    Except PyError α :=
  if value ∈ values then .ok value else .error .InvalidValueError

/-- Modelled from the spec: the validator `strict_range` of the
instrument-control core (not under `src/`): "returns `value` unchanged if
`low <= value <= high`; else fails with `InvalidValueError`". -/
def strict_range (value low high : ℚ) : Except PyError ℚ :=
  if low ≤ value ∧ value ≤ high then .ok value else .error .InvalidValueError

/-! ## Dispatch engine (spec §4.2) -/

/-- Modelled from the spec: the set dispatch of a `map_values=True` descriptor
of the instrument-control core (not under `src/`): validate with
`truncated_discrete_set` against the mapping's semantic keys, substitute the
validated semantic value with its mapped wire value, format the command.
`.ok c` is the command sent; `.error e` is raised before any I/O. -/
def mappedSet (set_command : String) (values : List (ℚ × ℕ)) (v : ℚ) :
    Except PyError String :=
  match truncated_discrete_set v (values.map Prod.fst) with
  | none => .error .InvalidValueError
  | some k =>
    match values.find? (fun p => decide (p.1 = k)) with
    | none => .error .KeyError
    | some p => .ok (formatCmd set_command (renderNat p.2))

/-- Modelled from the spec: the reverse lookup of the get dispatch of a
`map_values=True` descriptor (not under `src/`): "treat the wire value as the
*value-side* of the mapping and return the corresponding key (reverse
lookup); fails with `KeyError`-class error if the wire value has no known
reverse mapping". -/
def mappedReverseLookup (values : List (ℚ × ℕ)) (wire : ℕ) : Except PyError ℚ :=
  match values.find? (fun p => decide (p.2 = wire)) with
  | none => .error .KeyError
  | some p => .ok p.1

/-- Digits-to-natural accumulator for the numeric response parser. -/
def digitsToNat (acc : ℕ) : List Char → ℕ
  | [] => acc
  | c :: cs => digitsToNat (acc * 10 + (c.toNat - 48)) cs

/-- Modelled from the spec: parsing a raw adapter response "as the
attribute's scalar type (numeric by default)" (spec §4.2, §7 `ParseError`):
an optional sign, a nonempty integer part, and an optional nonempty decimal
fraction part; anything else is unparseable. -/
def parseScalar (s : String) : Option ℚ :=
  let (neg, body) :=
    match s.data with
    | '-' :: rest => (true, rest)
    | cs => (false, cs)
  let intPart := body.takeWhile Char.isDigit
  let rest := body.dropWhile Char.isDigit
  if intPart.isEmpty then none
  else
    let n := digitsToNat 0 intPart
    let signed : ℚ → ℚ := fun q => if neg then -q else q
    match rest with
    | [] => some (signed (mkRat n 1))
    | '.' :: fracPart =>
      if fracPart.isEmpty ∨ ¬ fracPart.all Char.isDigit then none
      else
        let f := digitsToNat 0 fracPart
        some (signed (mkRat (n * 10 ^ fracPart.length + f) (10 ^ fracPart.length)))
    | _ => none

/-- Modelled from the spec: the get dispatch of the descriptor engine (not
under `src/`): "if `get_command` absent → fails with `WriteOnlyError`"
(purely local, the adapter is never consulted); otherwise send the query,
parse the raw response as a numeric scalar (`ParseError` when impossible),
then apply `get_process` when supplied, else return the parsed value
unchanged. -/
def descriptorGet (get_command : Option String) (get_process : Option (PyVal → PyVal))
    (adapter : String → String) : Except PyError PyVal :=
  match get_command with
  | none => .error .WriteOnlyError
  | some cmd =>
    match parseScalar (adapter cmd) with
    | none => .error .ParseError
    | some q =>
      match get_process with
      | none => .ok (.num q)
      | some f => .ok (f (.num q))

/-! ## The DM3058 property table (translated from `dm3058.py`) -/

namespace DM3058

/-- Allowed semantic values of the `function` property (source lines 41-51). -/
def function_values : List String :=
  ["voltage", "voltage ac", "current", "current ac", "resistance",
   "resistance 4W", "capacitance", "continuity", "diode", "frequency", "period"]

/-- The `set_process` dict of the `function` property (source lines 66-78),
as an association list; Python raises `KeyError` outside its domain. -/
def function_set_process_map : List (String × String) :=
  [("voltage", "VOLT:DC"), ("voltage ac", "VOLT:AC"), ("current", "CURR:DC"),
   ("current ac", "CURR:AC"), ("resistance", "RES"), ("resistance 4W", "FRES"),
   ("capacitance", "CAP"), ("continuity", "CONT"), ("diode", "DIOD"),
   ("frequency", "FREQ"), ("period", "PER")]

/-- Set dispatch of the `function` property (source lines 33-79):
`strict_discrete_set` validation, then the `set_process` dict, then the
template `":FUNC:%s"`; dispatch order modelled from the spec (§4.2). -/
def function_set (v : String) : Except PyError String :=
  match strict_discrete_set v function_values with
  | .error e => .error e
  | .ok v' =>
    match function_set_process_map.find? (fun p => decide (p.1 = v')) with
    | none => .error .KeyError
    | some p => .ok (formatCmd ":FUNC:%s" p.2)

/-- `measurement_available` (source lines 83-87): `get_command = ":MEAS?"`. -/
def measurement_available_get_command : Option String := some ":MEAS?"

/-- Python `str.lower`: pointwise character lowering. -/
def pyLower (v : String) : String := String.mk (v.data.map Char.toLower)

/-- Python `bool` applied to a string: truthiness, i.e. nonemptiness. -/
def pyTruthy (s : String) : Bool := !s.data.isEmpty

/-- The `get_process` lambda of `measurement_available` (source line 86),
`lambda v: bool(v.lower())`, viewed as the function of the raw string reply it
denotes. -/
def measurement_available_get_fn (v : String) : Bool := pyTruthy (pyLower v)

/-- `measurement_auto_range` (source lines 89-94): `get_command = None`. -/
def measurement_auto_range_get_command : Option String := none

/-- `voltage_range` value mapping (source line 108):
`{0.2: 0, 2.0: 1, 20.0: 2, 200.0: 3, 1000.0: 4}`. -/
def voltage_range_values : List (ℚ × ℕ) :=
  [(mkRat 1 5, 0), (mkRat 2 1, 1), (mkRat 20 1, 2), (mkRat 200 1, 3), (mkRat 1000 1, 4)]

/-- `voltage_range` set command template (source line 105). -/
def voltage_range_set_command : String := ":MEAS:VOLT:DC %s"

/-- Set dispatch of `voltage_range` (source lines 103-110). -/
def voltage_range_set (v : ℚ) : Except PyError String :=
  mappedSet voltage_range_set_command voltage_range_values v

/-- `voltage_ac_range` value mapping (source line 140). -/
def voltage_ac_range_values : List (ℚ × ℕ) :=
  [(mkRat 1 5, 0), (mkRat 2 1, 1), (mkRat 20 1, 2), (mkRat 200 1, 3), (mkRat 750 1, 4)]

/-- `current_range` value mapping (source line 156):
`{200e-6: 0, 2e-3: 1, 20e-3: 2, 200.0e-3: 3, 2.0: 4, 10.0: 5}`. -/
def current_range_values : List (ℚ × ℕ) :=
  [(mkRat 1 5000, 0), (mkRat 1 500, 1), (mkRat 1 50, 2), (mkRat 1 5, 3),
   (mkRat 2 1, 4), (mkRat 10 1, 5)]

/-- `current_range` set command template (source line 153). -/
def current_range_set_command : String := ":MEAS:CURR:DC %s"

/-- `current_ac_range` value mapping (source line 180). -/
def current_ac_range_values : List (ℚ × ℕ) :=
  [(mkRat 1 50, 0), (mkRat 1 5, 1), (mkRat 2 1, 2), (mkRat 10 1, 3)]

/-- `resistance_range` value mapping (source line 196). -/
def resistance_range_values : List (ℚ × ℕ) :=
  [(mkRat 200 1, 0), (mkRat 2000 1, 1), (mkRat 20000 1, 2), (mkRat 200000 1, 3),
   (mkRat 1000000 1, 4), (mkRat 10000000 1, 5), (mkRat 100000000 1, 6)]

/-- `resistance_4w_range` value mapping (source line 210). -/
def resistance_4w_range_values : List (ℚ × ℕ) := resistance_range_values

/-- `frequency_voltage_range` value mapping (source line 226). -/
def frequency_voltage_range_values : List (ℚ × ℕ) :=
  [(mkRat 1 5, 0), (mkRat 2 1, 1), (mkRat 20 1, 2), (mkRat 200 1, 3), (mkRat 750 1, 4)]

/-- `period_voltage_range` value mapping (source line 242). -/
def period_voltage_range_values : List (ℚ × ℕ) := frequency_voltage_range_values

/-- `capacitance_range` value mapping (source line 280):
`{2e-9: 0, 20e-9: 1, 200e-9: 2, 2e-6: 3, 200e-6: 4, 10e-3: 5}`. -/
def capacitance_range_values : List (ℚ × ℕ) :=
  [(mkRat 1 500000000, 0), (mkRat 1 50000000, 1), (mkRat 1 5000000, 2),
   (mkRat 1 500000, 3), (mkRat 1 5000, 4), (mkRat 1 100, 5)]

/-- The value sets of every property of this driver declared with
`validator=truncated_discrete_set` (all nine `*_range` controls). -/
def truncatedSetDomains : List (List ℚ) :=
  [voltage_range_values.map Prod.fst,
   voltage_ac_range_values.map Prod.fst,
   current_range_values.map Prod.fst,
   current_ac_range_values.map Prod.fst,
   resistance_range_values.map Prod.fst,
   resistance_4w_range_values.map Prod.fst,
   frequency_voltage_range_values.map Prod.fst,
   period_voltage_range_values.map Prod.fst,
   capacitance_range_values.map Prod.fst]

/-- A `map_values=True` property of this driver: its set command template and
its semantic-to-wire mapping. -/
structure MappedProp where
  set_command : String
  mapping : List (ℚ × ℕ)
deriving DecidableEq

/-- Every property of this driver declared with `map_values=True`, with its
set command template and mapping, in source order. -/
def mappedProps : List MappedProp :=
  [⟨voltage_range_set_command, voltage_range_values⟩,
   ⟨":MEAS:VOLT:AC %s", voltage_ac_range_values⟩,
   ⟨current_range_set_command, current_range_values⟩,
   ⟨":MEAS:CURR:AC %s", current_ac_range_values⟩,
   ⟨":MEAS:RES %s", resistance_range_values⟩,
   ⟨":MEAS:FRES %s", resistance_4w_range_values⟩,
   ⟨":MEAS:FREQ %s", frequency_voltage_range_values⟩,
   ⟨":MEAS:PER %s", period_voltage_range_values⟩,
   ⟨":MEAS:CAP %s", capacitance_range_values⟩]

/-- `voltage_impedance` allowed values (source line 117). -/
def voltage_impedance_values : List String := ["10M", "10G"]

/-- Set dispatch of `voltage_impedance` (source lines 112-118):
`strict_discrete_set` validation, no transform, template
`":MEAS:VOLT:DC:IMPE %s"`; dispatch order modelled from the spec (§4.2). -/
def voltage_impedance_set (v : String) : Except PyError String :=
  match strict_discrete_set v voltage_impedance_values with
  | .error e => .error e
  | .ok v' => .ok (formatCmd ":MEAS:VOLT:DC:IMPE %s" v')

/-- The `set_process` lambda of `voltage_filter` (source line 124). -/
def voltage_filter_set_fn (v : Bool) : String := if v then "ON" else "OFF"

/-- The `get_process` lambda of `voltage_filter` (source line 125). -/
def voltage_filter_get_fn (v : String) : Bool := v == "ON"

/-- The `set_process` lambda of `current_filter` (source line 164). -/
def current_filter_set_fn (v : Bool) : String := if v then "ON" else "OFF"

/-- The `get_process` lambda of `current_filter` (source line 165). -/
def current_filter_get_fn (v : String) : Bool := v == "ON"

/-- `continuity` (source lines 248-251): an `Instrument.measurement` with
`get_command = ":MEAS:CONT?"` and no `get_process`. -/
def continuity_get_command : Option String := some ":MEAS:CONT?"

/-- `continuity` declares no `get_process` (source lines 248-251). -/
def continuity_get_process : Option (PyVal → PyVal) := none

/-- `continuity_limit` (source lines 253-259): `get_command = None`. -/
def continuity_limit_get_command : Option String := none

/-- Set dispatch of `continuity_limit` (source lines 253-259): `strict_range`
validation over `[10, 2000]`, no transform, template `":MEAS:CONT %s"`;
dispatch order modelled from the spec (§4.2). -/
def continuity_limit_set (v : ℚ) : Except PyError String :=
  match strict_range v 10 2000 with
  | .error e => .error e
  | .ok v' => .ok (formatCmd ":MEAS:CONT %s" (renderRat v'))

end DM3058

/-! ## Generic facts about the truncated-set validator -/

theorem minList_le (ys : List ℚ) : ∀ x : ℚ, minList x ys ≤ x ∧ ∀ w ∈ ys, minList x ys ≤ w := by
  induction ys with
  | nil => intro x; exact ⟨le_refl x, by intro w hw; cases hw⟩
  | cons y ys ih =>
    intro x
    have h := ih (min x y)
    simp only [minList]
    refine ⟨le_trans h.1 (min_le_left x y), ?_⟩
    intro w hw
    rcases List.mem_cons.mp hw with h1 | h1
    · subst h1; exact le_trans h.1 (min_le_right x w)
    · exact h.2 w h1

theorem minList_mem_or (ys : List ℚ) : ∀ x : ℚ, minList x ys = x ∨ minList x ys ∈ ys := by
  induction ys with
  | nil => intro x; exact Or.inl rfl
  | cons y ys ih =>
    intro x
    simp only [minList]
    rcases ih (min x y) with h | h
    · rcases min_choice x y with hc | hc
      · exact Or.inl (h.trans hc)
      · exact Or.inr (List.mem_cons.mpr (Or.inl (h.trans hc)))
    · exact Or.inr (List.mem_cons.mpr (Or.inr h))

theorem maxList_ge (ys : List ℚ) : ∀ x : ℚ, x ≤ maxList x ys ∧ ∀ w ∈ ys, w ≤ maxList x ys := by
  induction ys with
  | nil => intro x; exact ⟨le_refl x, by intro w hw; cases hw⟩
  | cons y ys ih =>
    intro x
    have h := ih (max x y)
    simp only [maxList]
    refine ⟨le_trans (le_max_left x y) h.1, ?_⟩
    intro w hw
    rcases List.mem_cons.mp hw with h1 | h1
    · subst h1; exact le_trans (le_max_right x w) h.1
    · exact h.2 w h1

theorem maxList_mem_or (ys : List ℚ) : ∀ x : ℚ, maxList x ys = x ∨ maxList x ys ∈ ys := by
  induction ys with
  | nil => intro x; exact Or.inl rfl
  | cons y ys ih =>
    intro x
    simp only [maxList]
    rcases ih (max x y) with h | h
    · rcases max_choice x y with hc | hc
      · exact Or.inl (h.trans hc)
      · exact Or.inr (List.mem_cons.mpr (Or.inl (h.trans hc)))
    · exact Or.inr (List.mem_cons.mpr (Or.inr h))

/-- The full behaviour of `truncated_discrete_set` on a nonempty value set:
it returns some member `m`; when some member is ≥ the candidate value, `m`
is the least such member; when the value exceeds every member, `m` is the
maximum. -/
theorem truncated_discrete_set_spec (v : ℚ) (l : List ℚ) (hne : l ≠ []) :
    ∃ m, truncated_discrete_set v l = some m ∧ m ∈ l ∧
      ((∃ w ∈ l, v ≤ w) → v ≤ m ∧ ∀ w ∈ l, v ≤ w → m ≤ w) ∧
      ((∀ w ∈ l, w < v) → ∀ w ∈ l, w ≤ m) := by
  rcases hfil : l.filter (fun w => decide (v ≤ w)) with _ | ⟨w, ws⟩
  · have hnone : ∀ u ∈ l, ¬ v ≤ u := by
      intro u hu hvu
      have : u ∈ l.filter (fun w => decide (v ≤ w)) :=
        List.mem_filter.mpr ⟨hu, by simpa using hvu⟩
      rw [hfil] at this
      cases this
    rcases hl : l with _ | ⟨x, xs⟩
    · exact absurd hl hne
    subst hl
    refine ⟨maxList x xs, ?_, ?_, ?_, ?_⟩
    · simp only [truncated_discrete_set, hfil]
    · rcases maxList_mem_or xs x with h | h
      · rw [h]; exact List.mem_cons_self x xs
      · exact List.mem_cons_of_mem x h
    · rintro ⟨u, hu, hvu⟩
      exact absurd hvu (hnone u hu)
    · intro _ u hu
      rcases List.mem_cons.mp hu with h1 | h1
      · subst h1; exact (maxList_ge xs u).1
      · exact (maxList_ge xs x).2 u h1
  · have hsub : ∀ u ∈ w :: ws, u ∈ l ∧ v ≤ u := by
      intro u hu
      have : u ∈ l.filter (fun w => decide (v ≤ w)) := hfil ▸ hu
      have h := List.mem_filter.mp this
      exact ⟨h.1, by simpa using h.2⟩
    have hmem : minList w ws ∈ l ∧ v ≤ minList w ws := by
      rcases minList_mem_or ws w with h | h
      · rw [h]; exact hsub w (List.mem_cons_self w ws)
      · exact hsub _ (List.mem_cons_of_mem w h)
    refine ⟨minList w ws, ?_, hmem.1, ?_, ?_⟩
    · simp only [truncated_discrete_set, hfil]
    · intro _
      refine ⟨hmem.2, ?_⟩
      intro u hu hvu
      have hufil : u ∈ w :: ws := by
        rw [← hfil]
        exact List.mem_filter.mpr ⟨hu, by simpa using hvu⟩
      rcases List.mem_cons.mp hufil with h1 | h1
      · subst h1; exact (minList_le ws u).1
      · exact (minList_le ws w).2 u h1
    · intro hall u hu
      exact le_of_lt (lt_of_lt_of_le (hall u hu) hmem.2)

/-! ## Claims -/

/-- Claim C1: for the `voltage_range` property (validator
`truncated_discrete_set` over the mapping `{0.2:0, 2.0:1, 20.0:2, 200.0:3,
1000.0:4}`, `map_values=True`, `set_command=":MEAS:VOLT:DC %s"`), setting the
value 1.5 makes the validator select 2.0, which maps to wire value 1, so the
command string sent through the Adapter is exactly `":MEAS:VOLT:DC 1"`. -/
theorem claim_voltage_range_end_to_end :
    truncated_discrete_set (mkRat 3 2) (DM3058.voltage_range_values.map Prod.fst) =
      some (mkRat 2 1) ∧
    DM3058.voltage_range_values.find? (fun p => decide (p.1 = mkRat 2 1)) =
      some (mkRat 2 1, 1) ∧
    DM3058.voltage_range_set (mkRat 3 2) = .ok ":MEAS:VOLT:DC 1" := by
  decide

/-- Claim C2: for every numeric value `v` and every value set of a property of
this driver declared with `validator=truncated_discrete_set`, the validator
returns some member of the set (it never fails); when some member is ≥ `v`
the result is the smallest such member, and when `v` exceeds every member the
result is the maximum element. -/
theorem claim_truncated_set_never_fails (R : List ℚ)
    (hR : R ∈ DM3058.truncatedSetDomains) (v : ℚ) :
    ∃ m, truncated_discrete_set v R = some m ∧ m ∈ R ∧
      ((∃ w ∈ R, v ≤ w) → v ≤ m ∧ ∀ w ∈ R, v ≤ w → m ≤ w) ∧
      ((∀ w ∈ R, w < v) → ∀ w ∈ R, w ≤ m) := by
  have hne : ∀ X ∈ DM3058.truncatedSetDomains, X ≠ [] := by decide
  exact truncated_discrete_set_spec v R (hne R hR)

theorem claim_truncated_set_never_fails_witness :
    (DM3058.voltage_range_values.map Prod.fst) ∈ DM3058.truncatedSetDomains ∧
    (∃ m, truncated_discrete_set (mkRat 3 2) (DM3058.voltage_range_values.map Prod.fst) =
        some m ∧
      m ∈ DM3058.voltage_range_values.map Prod.fst ∧
      ((∃ w ∈ DM3058.voltage_range_values.map Prod.fst, mkRat 3 2 ≤ w) →
        mkRat 3 2 ≤ m ∧
          ∀ w ∈ DM3058.voltage_range_values.map Prod.fst, mkRat 3 2 ≤ w → m ≤ w) ∧
      ((∀ w ∈ DM3058.voltage_range_values.map Prod.fst, w < mkRat 3 2) →
        ∀ w ∈ DM3058.voltage_range_values.map Prod.fst, w ≤ m)) :=
  ⟨by decide, claim_truncated_set_never_fails _ (by decide) (mkRat 3 2)⟩

/-- Claim C3: for every property of this driver declared with
`map_values=True` and mapping `M`, and every semantic key `k` of `M`, a set of
`k` sends the wire value `M[k]` (formatted into the property's set command),
and the reverse lookup of the get path resolves the wire value `M[k]` back to
exactly `k`. -/
theorem claim_mapped_round_trip :
    ∀ P ∈ DM3058.mappedProps, ∀ p ∈ P.mapping,
      mappedSet P.set_command P.mapping p.1 =
        .ok (formatCmd P.set_command (renderNat p.2)) ∧
      mappedReverseLookup P.mapping p.2 = .ok p.1 := by
  decide

theorem claim_mapped_round_trip_witness :
    mappedSet DM3058.voltage_range_set_command DM3058.voltage_range_values (mkRat 2 1) =
      .ok (formatCmd DM3058.voltage_range_set_command (renderNat 1)) ∧
    mappedReverseLookup DM3058.voltage_range_values 1 = .ok (mkRat 2 1) :=
  claim_mapped_round_trip ⟨DM3058.voltage_range_set_command, DM3058.voltage_range_values⟩
    (by decide) (mkRat 2 1, 1) (by decide)

/-- Claim C4: for the `continuity_limit` property (validator `strict_range`
over `[10, 2000]`), every `v` with `10 ≤ v ≤ 2000` passes unchanged into the
formatted command, and every `v` outside `[10, 2000]` raises
`InvalidValueError` locally, so no command string reaches the Adapter. -/
theorem claim_continuity_limit_strict_range (v : ℚ) :
    (10 ≤ v ∧ v ≤ 2000 →
      DM3058.continuity_limit_set v = .ok (formatCmd ":MEAS:CONT %s" (renderRat v))) ∧
    (¬ (10 ≤ v ∧ v ≤ 2000) →
      DM3058.continuity_limit_set v = .error .InvalidValueError) := by
  constructor
  · intro h
    simp only [DM3058.continuity_limit_set, strict_range, if_pos h]
  · intro h
    simp only [DM3058.continuity_limit_set, strict_range, if_neg h]

theorem claim_continuity_limit_strict_range_witness :
    DM3058.continuity_limit_set 100 = .ok (formatCmd ":MEAS:CONT %s" (renderRat 100)) ∧
    DM3058.continuity_limit_set 5000 = .error .InvalidValueError :=
  ⟨(claim_continuity_limit_strict_range 100).1 (by norm_num),
   (claim_continuity_limit_strict_range 5000).2 (by norm_num)⟩

/-- Claim C5: the two descriptors of this driver whose `get_command` is
absent — `measurement_auto_range` and `continuity_limit` — answer a get with
`WriteOnlyError` for every possible adapter, i.e. purely locally, with no
I/O attempted. -/
theorem claim_write_only_get (adapter : String → String) :
    descriptorGet DM3058.measurement_auto_range_get_command none adapter =
      .error .WriteOnlyError ∧
    descriptorGet DM3058.continuity_limit_get_command none adapter =
      .error .WriteOnlyError :=
  ⟨rfl, rfl⟩

theorem claim_write_only_get_witness :
    descriptorGet DM3058.measurement_auto_range_get_command none (fun _ => "0") =
      .error .WriteOnlyError ∧
    descriptorGet DM3058.continuity_limit_get_command none (fun _ => "0") =
      .error .WriteOnlyError :=
  claim_write_only_get (fun _ => "0")

/-- Claim C6, counterexample: the descriptor of this driver whose
`get_command` is `":MEAS:CONT?"` is `continuity`, and it declares no
`get_process` at all, so a get whose raw response is `"1"` does not return
the boolean `True` (it returns the parsed number). -/
theorem claim_continuity_counterexample :
    DM3058.continuity_get_command = some ":MEAS:CONT?" ∧
    DM3058.continuity_get_process = none ∧
    descriptorGet DM3058.continuity_get_command DM3058.continuity_get_process
      (fun _ => "1") ≠ .ok (.boolean true) :=
  ⟨rfl, rfl, by decide⟩

/-- Claim C6, amended: the descriptor of this driver whose `get_command` is
`":MEAS:CONT?"` (`continuity`) has no `get_process`, so when the Adapter
returns `"1"` a get of that property returns the parsed numeric value 1
unchanged. -/
theorem claim_continuity_get_parsed :
    DM3058.continuity_get_command = some ":MEAS:CONT?" ∧
    DM3058.continuity_get_process = none ∧
    descriptorGet DM3058.continuity_get_command DM3058.continuity_get_process
      (fun _ => "1") = .ok (.num 1) :=
  ⟨rfl, rfl, by decide⟩

/-- Claim C7: for the `voltage_impedance` property (validator
`strict_discrete_set` over `["10M", "10G"]`), every member of the set is
returned unchanged by the validator and sent verbatim in the formatted
command, and every non-member raises `InvalidValueError`. -/
theorem claim_voltage_impedance_strict (v : String) :
    (v ∈ DM3058.voltage_impedance_values →
      strict_discrete_set v DM3058.voltage_impedance_values = .ok v ∧
      DM3058.voltage_impedance_set v = .ok (formatCmd ":MEAS:VOLT:DC:IMPE %s" v)) ∧
    (v ∉ DM3058.voltage_impedance_values →
      DM3058.voltage_impedance_set v = .error .InvalidValueError) := by
  constructor
  · intro h
    have h1 : strict_discrete_set v DM3058.voltage_impedance_values = .ok v := by
      simp only [strict_discrete_set, if_pos h]
    exact ⟨h1, by simp only [DM3058.voltage_impedance_set, h1]⟩
  · intro h
    simp only [DM3058.voltage_impedance_set, strict_discrete_set, if_neg h]

theorem claim_voltage_impedance_strict_witness :
    (strict_discrete_set "10M" DM3058.voltage_impedance_values = .ok "10M" ∧
      DM3058.voltage_impedance_set "10M" = .ok (formatCmd ":MEAS:VOLT:DC:IMPE %s" "10M")) ∧
    DM3058.voltage_impedance_set "5M" = .error .InvalidValueError :=
  ⟨(claim_voltage_impedance_strict "10M").1 (by decide),
   (claim_voltage_impedance_strict "5M").2 (by decide)⟩

/-- Claim C8: for the `function` property (`map_values=False`,
`set_command=":FUNC:%s"`), a set of any semantic value in the 11-element
allowed list validates membership with `strict_discrete_set`, applies the
`set_process` dict to the validated value, and sends `":FUNC:"` followed by
the dict's image; in particular, setting `"voltage"` sends exactly
`":FUNC:VOLT:DC"`. -/
theorem claim_function_set :
    (∀ v ∈ DM3058.function_values,
      strict_discrete_set v DM3058.function_values = .ok v ∧
      ∃ p ∈ DM3058.function_set_process_map, p.1 = v ∧
        DM3058.function_set v = .ok (":FUNC:" ++ p.2)) ∧
    DM3058.function_set "voltage" = .ok ":FUNC:VOLT:DC" := by
  decide

theorem claim_function_set_witness :
    strict_discrete_set "voltage" DM3058.function_values = .ok "voltage" ∧
    ∃ p ∈ DM3058.function_set_process_map, p.1 = "voltage" ∧
      DM3058.function_set "voltage" = .ok (":FUNC:" ++ p.2) :=
  claim_function_set.1 "voltage" (by decide)

/-- Claim C9: the `measurement_available` get transform
`lambda v: bool(v.lower())`, as a function of the raw string reply, returns
`True` for every non-empty string (including `"0"`) and `False` only for the
empty string, so it cannot distinguish a device answer of `"0"` from
`"1"`. -/
theorem claim_measurement_available_truthiness :
    (∀ s : String, DM3058.measurement_available_get_fn s = true ↔ s ≠ "") ∧
    DM3058.measurement_available_get_fn "0" = DM3058.measurement_available_get_fn "1" ∧
    DM3058.measurement_available_get_fn "0" = true ∧
    DM3058.measurement_available_get_fn "" = false := by
  refine ⟨?_, by decide, by decide, by decide⟩
  intro s
  have hfn : DM3058.measurement_available_get_fn s =
      !(s.data.map Char.toLower).isEmpty := rfl
  rw [hfn, Ne, String.ext_iff]
  rcases hd : s.data with _ | ⟨c, cs⟩ <;> simp

theorem claim_measurement_available_truthiness_witness :
    DM3058.measurement_available_get_fn "0" = true ↔ ("0" : String) ≠ "" :=
  claim_measurement_available_truthiness.1 "0"

/-- Claim C10: for the `voltage_filter` and `current_filter` properties, the
get transform is a left inverse of the set transform on booleans: for every
boolean `b`, applying the set lambda (`True ↦ "ON"`, `False ↦ "OFF"`) and
then the get lambda (`v == "ON"`) returns `b`. -/
theorem claim_filter_round_trip (b : Bool) :
    DM3058.voltage_filter_get_fn (DM3058.voltage_filter_set_fn b) = b ∧
    DM3058.current_filter_get_fn (DM3058.current_filter_set_fn b) = b := by
  cases b <;> exact ⟨by decide, by decide⟩

theorem claim_filter_round_trip_witness :
    DM3058.voltage_filter_get_fn (DM3058.voltage_filter_set_fn true) = true ∧
    DM3058.current_filter_get_fn (DM3058.current_filter_set_fn true) = true :=
  claim_filter_round_trip true
